import Mathlib

/-!
Verification development for the timevault backup orchestrator.

The definitions below are a shallow embedding of the Rust sources:
  * `src/util/paths.rs`        — `isSafeName`
  * `src/error.rs`             — `DiskErrorM`
  * `src/cli/commands/mod.rs`  — `exitForDiskError`
  * `src/disk/mod.rs`          — `selectDiskFromConnected`, `selectDisk`
  * `src/disk/fs_type.rs`      — `FsTypeM`
  * `src/disk/identity.rs`     — `DiskIdentityM`, `verifyIdentity`
  * `src/backup/mod.rs`        — `expireOldBackups`, `runJobStep`, `runBackup`
  * `src/backup/rsync.rs`      — `isSyncOk` (exit-code contract of SYNC)
  * `src/backup/pristine.rs`   — `processPath`, `buildCacheStep`
  * `src/cli/commands/backup.rs` — `jobRequiresDisk`, `filterJobsForDisk`,
      `allowedDisksForJob`, `cascadeJobsFor`, `runJobsForPrimary`, `mountAndVerify`
  * `src/cli/commands/disk_add.rs` — `runEnrollModel`

Filesystems are modelled as association lists from entry names to entry
kinds (directory, regular file, symlink); external processes (mount, blkid,
SYNC) are modelled by environment parameters carrying their outcomes.  The
external SYNC tool is modelled by its documented contract: it is invoked
with destination `<backup_dir>/` and on a successful run creates that
directory when absent (the engine itself only checks `backup_dir.exists()`
afterwards).
-/

namespace Timevault

/-- `is_safe_name` from `src/util/paths.rs`: nonempty, not `.` or `..`,
every character ASCII alphanumeric or one of `.-_`.  (`Char.isAlphanum`
is ASCII-only, matching Rust's `is_ascii_alphanumeric`.) -/
def isSafeName (s : String) : Bool :=
  if s.isEmpty || s == "." || s == ".." then false
  else s.toList.all (fun c => c.isAlphanum || c == '-' || c == '_' || c == '.')

/-- Association-list lookup by name (models a directory or cache lookup). -/
def lookupEntry {α : Type} : List (String × α) → String → Option α
  | [], _ => none
  | (k, v) :: rest, n => if k == n then some v else lookupEntry rest n

/-- Remove the entry with the given name (models `fs::remove_file` /
`fs::remove_dir_all` at the directory-listing level). -/
def removeEntry {α : Type} : List (String × α) → String → List (String × α)
  | [], _ => []
  | (k, v) :: rest, n =>
    if k == n then removeEntry rest n else (k, v) :: removeEntry rest n

/-- Insert or replace the entry with the given name (models creating a
file/directory/symlink, or `HashMap::insert`). -/
def insertEntry {α : Type} : List (String × α) → String → α → List (String × α)
  | [], n, v => [(n, v)]
  | (k, w) :: rest, n, v =>
    if k == n then (n, v) :: rest else (k, w) :: insertEntry rest n v

/-- Lexicographic order on character lists by code point (agrees with
Rust's byte-wise `String` order on ASCII names such as `YYYYMMDD`). -/
def strLeChars : List Char → List Char → Bool
  | [], _ => true
  | _ :: _, [] => false
  | a :: as, b :: bs =>
    if a.toNat < b.toNat then true
    else if b.toNat < a.toNat then false
    else strLeChars as bs

/-- Lexicographic order on strings. -/
def strLe (a b : String) : Bool :=
  strLeChars a.toList b.toList

/-- Lexicographic ascending sort of names, as `Vec<String>::sort()`. -/
def sortStrings (l : List String) : List String :=
  l.insertionSort (fun a b => strLe a b = true)

/-- A directory entry kind, as distinguished by `fs::symlink_metadata`. -/
inductive FsEntry where
  | dir
  | file
  | symlink (target : String)
deriving DecidableEq

/-- Contents of one job destination directory: entry name ↦ entry kind. -/
abbrev Dest := List (String × FsEntry)

/-- `RunMode` from `src/types.rs`. -/
structure RunMode where
  dryRun : Bool
  safeMode : Bool
  verbose : Bool
deriving DecidableEq

/-- `Path::exists()` on `dest/<n>`: follows symlinks, so a symlink entry
exists only when its (sibling) target does. -/
def entryExists (d : Dest) (n : String) : Bool :=
  match lookupEntry d n with
  | some (.symlink t) => (lookupEntry d t).isSome
  | some _ => true
  | none => false

/-- `DiskError` from `src/error.rs`. -/
inductive DiskErrorM where
  | noDiskConnected
  | multipleDisksConnected
  | identityMismatch (detail : String)
  | diskNotEmpty (listing : String)
  | mountFailure (detail : String)
  | umountFailure (detail : String)
  | other (detail : String)
deriving DecidableEq

/-- `exit_for_disk_error` from `src/cli/commands/mod.rs`. -/
def exitForDiskError : DiskErrorM → Int
  | .noDiskConnected => 10
  | .multipleDisksConnected => 11
  | .identityMismatch _ => 12
  | .diskNotEmpty _ => 13
  | .mountFailure _ => 14
  | .umountFailure _ => 14
  | .other _ => 2

/-- `BackupDiskConfig` from `src/config/model.rs` (the fields the modelled
logic consults; `label` and `mountOptions` play no role in the claims). -/
structure DiskCfg where
  diskId : String
  fsUuid : String
deriving DecidableEq

/-- `select_disk_from_connected` from `src/disk/mod.rs`, with the
`HashSet<String>` of connected fs-uuids modelled as a membership test. -/
def selectDiskFromConnected (disks : List DiskCfg) (diskId : Option String)
    (connectedUuids : String → Bool) : Except DiskErrorM DiskCfg :=
  if disks.isEmpty then
    .error (.other "no backup disks enrolled; run `timevault disk enroll ...`")
  else
    match diskId with
    | some id =>
      match disks.find? (fun d => d.diskId == id) with
      | none => .error (.other ("disk-id " ++ id ++ " not found in config"))
      | some d =>
        if connectedUuids d.fsUuid then .ok d
        else .error (.other ("disk-id " ++ d.diskId ++ " not connected"))
    | none =>
      match disks.filter (fun d => connectedUuids d.fsUuid) with
      | [] => .error .noDiskConnected
      | [d] => .ok d
      | _ :: _ :: _ => .error .multipleDisksConnected

/-- `select_disk` from `src/disk/mod.rs`: builds the set of fs-uuids of
connected catalog disks (`connected_disks_in_order` keeps catalog disks
whose `/dev/disk/by-uuid/<uuid>` link exists, modelled by `conn`) and
delegates to `selectDiskFromConnected`. -/
def selectDisk (disks : List DiskCfg) (diskId : Option String)
    (conn : String → Bool) : Except DiskErrorM DiskCfg :=
  let connectedUuids := (disks.filter (fun d => conn d.fsUuid)).map (fun d => d.fsUuid)
  selectDiskFromConnected disks diskId (fun u => connectedUuids.contains u)

/-- `Job` from `src/config/model.rs` (fields consulted by the modelled
logic; `run_policy` and `excludes` do not enter the claims below). -/
structure JobM where
  name : String
  source : String
  copies : Nat
  diskIds : Option (List String)
deriving DecidableEq

/-- `job_requires_disk` from `src/cli/commands/backup.rs`: a job with no
`diskIds` affinity never matches a `--disk-id` selection. -/
def jobRequiresDisk (j : JobM) (diskId : String) : Bool :=
  match j.diskIds with
  | some ids => ids.any (fun id => id == diskId)
  | none => false

/-- The `--disk-id` filtering step of `run_backup_command`
(`src/cli/commands/backup.rs` lines 94-101): retain matching jobs and
abort with exit code 2 when none remain. -/
def filterJobsForDisk (jobs : List JobM) (diskId : String) :
    Except (Int × String) (List JobM) :=
  let kept := jobs.filter (fun j => jobRequiresDisk j diskId)
  if kept.isEmpty then .error (2, "no jobs matched disk selection; aborting")
  else .ok kept

/-- `FsType` from `src/disk/fs_type.rs`. -/
inductive FsTypeM where
  | ext2 | ext3 | ext4 | xfs | jfs | btrfs | zfs | f2fs
  | other (name : String)
deriving DecidableEq

/-- `FsType::is_allowed`. -/
def FsTypeM.isAllowed : FsTypeM → Bool
  | .other _ => false
  | _ => true

/-- `FsType::is_rejected`. -/
def FsTypeM.isRejected : FsTypeM → Bool
  | .other name =>
      name == "vfat" || name == "fat" || name == "fat32" || name == "exfat" ||
      name == "ntfs" || name == "hfsplus" || name == "hfs" || name == "apfs" ||
      name == "iso9660" || name == "udf" || name == "msdos"
  | _ => false

/-- `FsType::as_str`. -/
def FsTypeM.asStr : FsTypeM → String
  | .ext2 => "ext2"
  | .ext3 => "ext3"
  | .ext4 => "ext4"
  | .xfs => "xfs"
  | .jfs => "jfs"
  | .btrfs => "btrfs"
  | .zfs => "zfs"
  | .f2fs => "f2fs"
  | .other name => name

/-- `DiskIdentity` from `src/disk/identity.rs`. -/
structure DiskIdentityM where
  version : Nat
  diskId : String
  fsUuid : String
  fsType : Option FsTypeM
  created : String
deriving DecidableEq

/-- `verify_identity` from `src/disk/identity.rs` (`IDENTITY_VERSION = 1`). -/
def verifyIdentity (id : DiskIdentityM) (diskId fsUuid : String) :
    Except DiskErrorM Unit :=
  if id.version != 1 then
    .error (.identityMismatch
      ("version mismatch: expected 1, got " ++ toString id.version))
  else if id.diskId != diskId then
    .error (.identityMismatch
      ("diskId mismatch: expected " ++ diskId ++ ", got " ++ id.diskId))
  else if id.fsUuid != fsUuid then
    .error (.identityMismatch
      ("fsUuid mismatch: expected " ++ fsUuid ++ ", got " ++ id.fsUuid))
  else .ok ()

/-- The candidate names collected by `expire_old_backups`
(`src/backup/mod.rs` lines 162-170): every child of `dest` except `.`,
`..`, `current` and the `.timevault` marker. -/
def expireNames (d : Dest) : List String :=
  (d.map Prod.fst).filter
    (fun n => !(n == "." || n == ".." || n == "current" || n == ".timevault"))

/-- One deletion step of `expire_old_backups` (lines 178-199): symlinks
and non-directories are skipped; directories are deleted unless
`safe_mode` or `dry_run` is set. -/
def expireDelete (m : RunMode) (d : Dest) (n : String) : Dest :=
  match lookupEntry d n with
  | some (.symlink _) => d
  | some .file => d
  | some .dir => if m.safeMode || m.dryRun then d else removeEntry d n
  | none => d

/-- `expire_old_backups` from `src/backup/mod.rs` lines 158-202: sort the
candidate names ascending and delete the oldest `count - copies` when the
count exceeds `copies`. -/
def expireOldBackups (copies : Nat) (d : Dest) (m : RunMode) : Dest :=
  let backups := sortStrings (expireNames d)
  if backups.length ≤ copies then d
  else (backups.take (backups.length - copies)).foldl (expireDelete m) d

/-- Success test on a SYNC exit code (`src/backup/mod.rs` lines 109, 116):
0 or 24 ("source vanished") is success. -/
def isSyncOk (rc : Int) : Bool :=
  rc == 0 || rc == 24

/-- The SYNC retry loop of `run_backup` (`src/backup/mod.rs` lines
106-115): up to 3 attempts, stopping at the first success.  `run_rsync`
returns a synthetic 0 without executing anything in dry-run
(`run_nice_ionice`, `src/util/command.rs`).  Returns (number of
invocations, exit code of the last invocation). -/
def syncLoop (m : RunMode) (codes : Nat → Int) : Nat × Int :=
  let c := fun i => if m.dryRun then 0 else codes i
  if isSyncOk (c 1) then (1, c 1)
  else if isSyncOk (c 2) then (2, c 2)
  else (3, c 3)

/-- The `current` update of `run_backup` (`src/backup/mod.rs` lines
121-145), entered when SYNC succeeded and `backup_dir` exists: remove an
existing `current` symlink or regular file (skipped in safe-mode and
dry-run; an existing directory is never touched), then create the relative
symlink `current → backup_day` when `current.exists()` is false.
`symlink` fails with an error when an entry named `current` is still
present (a dangling symlink kept by safe-mode), mirroring the propagated
`std::os::unix::fs::symlink` EEXIST. -/
def updateCurrent (m : RunMode) (day : String) (d : Dest) : Except String Dest :=
  let d1 :=
    match lookupEntry d "current" with
    | some (.symlink _) =>
        if m.safeMode || m.dryRun then d else removeEntry d "current"
    | some .file =>
        if m.safeMode || m.dryRun then d else removeEntry d "current"
    | some .dir => d
    | none => d
  if entryExists d1 "current" then .ok d1
  else if m.dryRun then .ok d1
  else
    match lookupEntry d1 "current" with
    | some _ => .error "symlink current: File exists"
    | none => .ok (insertEntry d1 "current" (.symlink day))

/-- The per-job body of `run_backup` (`src/backup/mod.rs` lines 56-145)
for one job over its destination listing `d`:
1. `resolve_job_dest` rejects unsafe job names;
2. `expire_old_backups`;
3. seed: when `current` exists and `backup_dir` does not, create
   `backup_dir` as a hardlink clone (at listing level: a new directory);
4. the SYNC retry loop (`codes i` is the exit code of attempt `i`); a
   successful non-dry SYNC materialises `backup_dir` when absent
   (external contract of `rsync -ar ... <source>/ <backup_dir>/`);
5. the `current` update when SYNC succeeded and `backup_dir` exists.
Returns the final listing and the number of SYNC invocations. -/
def runJobStep (m : RunMode) (codes : Nat → Int) (day : String) (job : JobM)
    (d : Dest) : Except String (Dest × Nat) :=
  if !isSafeName job.name then
    .error ("job " ++ job.name ++ " name must use only letters, digits, '.', '-', '_'")
  else
    let d1 := expireOldBackups job.copies d m
    let seed := entryExists d1 "current" && !(entryExists d1 day)
    let d2 := if seed && !m.dryRun then insertEntry d1 day .dir else d1
    let r := syncLoop m codes
    let ok := isSyncOk r.2
    let d3 := if ok && !m.dryRun && !(entryExists d2 day) then insertEntry d2 day .dir else d2
    if ok && entryExists d3 day then
      (updateCurrent m day d3).map (fun d4 => (d4, r.1))
    else
      .ok (d3, r.1)

/-- `run_backup` from `src/backup/mod.rs` lines 49-148 over its job list:
per job, acquire the lock (skipped in dry-run; a held lock aborts the
whole run with `job <name> is already running`), then the per-job body.
`codes j i` is the exit code of SYNC attempt `i` for job `j`; `lockBusy`
tells whether another live process holds a job's PID file; `dests` gives
each job's initial destination listing.  Returns, per job in order, the
job name, final listing and SYNC invocation count. -/
def runBackup (m : RunMode) (codes : String → Nat → Int)
    (lockBusy : String → Bool) (day : String) (dests : String → Dest) :
    List JobM → Except String (List (String × Dest × Nat))
  | [] => .ok []
  | job :: rest =>
    if !m.dryRun && lockBusy job.name then
      .error ("job " ++ job.name ++ " is already running")
    else do
      let r ← runJobStep m (codes job.name) day job (dests job.name)
      let tail ← runBackup m codes lockBusy day dests rest
      .ok ((job.name, r.1, r.2) :: tail)

/-- A pristine-cache entry (`CacheEntry` in `src/backup/pristine.rs`). -/
structure CacheEntryM where
  mtime : Nat
  hash : String
  dirty : Bool
deriving DecidableEq

/-- The per-path cache update of `build_pristine_excludes`
(`src/backup/pristine.rs` lines 105-160): a hit with matching mtime is
reused; a hit with differing mtime keeps the stored hash and recomputes
`dirty` from the fresh content hash; a miss stores the fresh hash as
pristine.  `hashNow` is the SHA-256 of the file's current content. -/
def processPath (old : List (String × CacheEntryM)) (path : String)
    (mtime : Nat) (hashNow : String) : CacheEntryM :=
  match lookupEntry old path with
  | some e => if e.mtime == mtime then e else ⟨mtime, e.hash, hashNow != e.hash⟩
  | none => ⟨mtime, hashNow, false⟩

/-- One run of the cache-refresh loop of `build_pristine_excludes`
(lines 88-162): `new_entries` starts empty and is filled from the
observed regular files (path, mtime, content hash), each looked up in the
previous cache. -/
def buildCacheStep (old : List (String × CacheEntryM))
    (files : List (String × Nat × String)) : List (String × CacheEntryM) :=
  files.foldl (fun acc f => insertEntry acc f.1 (processPath old f.1 f.2.1 f.2.2)) []

/-- Errors crossing `run_jobs_for_primary` / `mount_and_verify`
(`TimevaultError` restricted to the variants those paths produce). -/
inductive RunErr where
  | disk (e : DiskErrorM)
  | msg (s : String)
deriving DecidableEq

/-- Environment of one `mount_and_verify` call
(`src/cli/commands/backup.rs` lines 383-447): the outcome of
`mount_disk_guarded`, the state of the on-disk `.timevault` file
(absent / unreadable / parsed), and the outcome of `detect_fs_type`. -/
structure MountEnv where
  mountResult : Except RunErr Unit
  identity : Option (Except String DiskIdentityM)
  detectFs : Except String FsTypeM

/-- Result of `mount_and_verify`: a process exit through
`exit_for_disk_error`, a returned error, or success carrying whether a
`MountGuard` is held and the mountpoint path. -/
inductive MVResult where
  | exitDisk (e : DiskErrorM)
  | err (e : RunErr)
  | ok (hasGuard : Bool) (mountpoint : String)
deriving DecidableEq

/-- `mount_and_verify` from `src/cli/commands/backup.rs` lines 383-447.
In dry-run it mounts nothing, takes no guard and does none of the
identity or filesystem-type checks, returning `mount_base/<fs-uuid>`.
The returned Bool records whether a mount was performed. -/
def mountAndVerify (env : MountEnv) (disk : DiskCfg) (mountBase : String)
    (m : RunMode) : Bool × MVResult :=
  if m.dryRun then
    (false, .ok false (mountBase ++ "/" ++ disk.fsUuid))
  else
    match env.mountResult with
    | .error (.disk e) => (false, .exitDisk e)
    | .error e => (false, .err e)
    | .ok () =>
      let mp := mountBase ++ "/" ++ disk.fsUuid
      match env.identity with
      | none =>
        (true, .exitDisk (.identityMismatch
          ("file missing at " ++ mp ++ "/.timevault; expected diskId " ++
            disk.diskId ++ " fsUuid " ++ disk.fsUuid ++
            " (run `timevault disk enroll ...`)")))
      | some (.error e) => (true, .err (.msg ("identity file invalid: " ++ e)))
      | some (.ok id) =>
        match verifyIdentity id disk.diskId disk.fsUuid with
        | .error e => (true, .exitDisk e)
        | .ok () =>
          match env.detectFs with
          | .error e => (true, .err (.msg e))
          | .ok fs =>
            if !fs.isAllowed then
              (true, .err (.disk (.other ("unsupported filesystem type " ++ fs.asStr))))
            else
              match id.fsType with
              | some idFs =>
                if idFs != fs then
                  (true, .err (.disk (.identityMismatch
                    ("fsType mismatch: expected " ++ idFs.asStr ++ ", got " ++ fs.asStr))))
                else (true, .ok true mp)
              | none => (true, .ok true mp)

/-- `allowed_disks_for_job` from `src/cli/commands/backup.rs` lines
202-214: the connected disks permitted by the job's `diskIds`, or all
connected disks when no affinity is given. -/
def allowedDisksForJob (j : JobM) (connected : List DiskCfg) : List DiskCfg :=
  match j.diskIds with
  | some ids => connected.filter (fun d => ids.any (fun id => id == d.diskId))
  | none => connected

/-- The per-disk-id cascade job list built by `run_jobs_for_primary`
(`src/cli/commands/backup.rs` lines 237-249): for each job in order, for
each allowed connected disk other than the primary (by fs-uuid), one
occurrence of the job under that disk's disk-id key. -/
def cascadeJobsFor (primary : DiskCfg) (connected : List DiskCfg)
    (jobs : List JobM) (id : String) : List JobM :=
  jobs.foldr
    (fun j acc =>
      (((allowedDisksForJob j connected).filter
          (fun d => !(d.fsUuid == primary.fsUuid) && d.diskId == id)).map
        (fun _ => j)) ++ acc)
    []

/-- The rewritten source of a cascaded job:
`primary_mount/<job.name>/current` (lines 258-259). -/
def cascadeSrc (primaryMount : String) (j : JobM) : String :=
  primaryMount ++ "/" ++ j.name ++ "/current"

/-- The failure message for a missing cascade source (lines 263-269). -/
def missingMsg (src : String) : String :=
  "missing cascade source " ++ src ++ "; primary disk did not produce current snapshot"

/-- The cascaded-job construction loop of `run_jobs_for_primary` (lines
256-277): rewrite each job's source to the primary's `current`; a missing
source fails the run with exit code 1 unless in dry-run, where the job is
skipped with a notice. -/
def buildCascadeJobs (m : RunMode) (srcExists : String → Bool)
    (primaryMount : String) : List JobM → Except (Int × String) (List JobM)
  | [] => .ok []
  | j :: rest =>
    let src := cascadeSrc primaryMount j
    if !m.dryRun && !srcExists src then
      .error (1, missingMsg src)
    else if m.dryRun && !srcExists src then
      buildCascadeJobs m srcExists primaryMount rest
    else do
      let tail ← buildCascadeJobs m srcExists primaryMount rest
      .ok ({ j with source := src } :: tail)

/-- The cascade disk loop of `run_jobs_for_primary` (lines 251-290),
abstracted over `mount_and_verify` (`mv`, yielding the mountpoint) and
`run_backup_checked` (`rbc`, `none` = the pass succeeded).  Disks whose
cascade job list is empty are skipped without mounting (no map entry was
created for them); after a mount, an empty rewritten list (dry-run skips)
releases the guard and continues.  Returns the first failure, if any,
together with the log of `run_backup_checked` invocations
(mountpoint, job list) performed. -/
def cascadeDisks (mv : DiskCfg → Except RunErr String)
    (rbc : List JobM → String → Option (Int × String))
    (srcExists : String → Bool) (primary : DiskCfg) (jobs : List JobM)
    (allConnected : List DiskCfg) (m : RunMode) (primaryMount : String) :
    List DiskCfg → Except RunErr (Option (Int × String) × List (String × List JobM))
  | [] => .ok (none, [])
  | d :: rest =>
    let jl := cascadeJobsFor primary allConnected jobs d.diskId
    if jl.isEmpty then
      cascadeDisks mv rbc srcExists primary jobs allConnected m primaryMount rest
    else do
      let mp ← mv d
      match buildCascadeJobs m srcExists primaryMount jl with
      | .error f => .ok (some f, [])
      | .ok [] =>
        cascadeDisks mv rbc srcExists primary jobs allConnected m primaryMount rest
      | .ok cjobs =>
        match rbc cjobs mp with
        | some r => .ok (some r, [(mp, cjobs)])
        | none => do
          let t ← cascadeDisks mv rbc srcExists primary jobs allConnected m primaryMount rest
          .ok (t.1, (mp, cjobs) :: t.2)

/-- `run_jobs_for_primary` from `src/cli/commands/backup.rs` lines
216-295: mount and verify the primary, run its job group, then — when
cascade is enabled — run the cascade disk loop.  Returns the first
failure `(exit code, message)` if any, and the log of
`run_backup_checked` invocations (mountpoint, job list). -/
def runJobsForPrimary (mv : DiskCfg → Except RunErr String)
    (rbc : List JobM → String → Option (Int × String))
    (srcExists : String → Bool) (primary : DiskCfg) (jobs : List JobM)
    (connected : List DiskCfg) (cascade : Bool) (m : RunMode) :
    Except RunErr (Option (Int × String) × List (String × List JobM)) := do
  let primaryMount ← mv primary
  match rbc jobs primaryMount with
  | some r => .ok (some r, [(primaryMount, jobs)])
  | none =>
    if cascade then do
      let t ← cascadeDisks mv rbc srcExists primary jobs connected m primaryMount connected
      .ok (t.1, (primaryMount, jobs) :: t.2)
    else
      .ok (none, [(primaryMount, jobs)])

/-- Environment of `run_enroll` (`src/cli/commands/disk_add.rs`) after
config load and fs-uuid resolution: device connectivity and mount state,
detected filesystem type, outcome of `mount_device`, the parsed
`.timevault` at the mounted root (`none` when absent), and the root
entries other than `lost+found`. -/
structure EnrollEnv where
  deviceExists : Bool
  deviceMounted : Bool
  fsType : FsTypeM
  mountResult : Except String Unit
  identityOnDisk : Option DiskIdentityM
  unexpected : List String

/-- Outcome of `run_enroll`: a returned error, an explicit
`std::process::exit`, or success carrying the new disk catalog and
whether `write_identity` was invoked. -/
inductive EnrollOutcome where
  | err (e : DiskErrorM)
  | exitCode (n : Int)
  | ok (disks : List DiskCfg) (identityWritten : Bool)
deriving DecidableEq

/-- The tail of `run_enroll` (`src/cli/commands/disk_add.rs` lines
110-154) after the disk-id was resolved: parse it as a `DiskId` (exit 2
on unsafe names), reject an already-enrolled disk-id, check emptiness
unless an existing identity was adopted, then write the identity (when
`force` or no identity was adopted) and append the disk to the config.
The argument carries either an early outcome or
`(disk_id_raw, existing_identity)`. -/
def finishEnroll (cfgDisks : List DiskCfg) (force : Bool) (fsUuid : String)
    (env : EnrollEnv) : Except EnrollOutcome (String × Bool) → EnrollOutcome
  | .error o => o
  | .ok (rawId, existingIdentity) =>
    if !isSafeName rawId then .exitCode 2
    else if cfgDisks.any (fun d => d.diskId == rawId) then
      .err (.other ("disk-id " ++ rawId ++ " already enrolled"))
    else if !existingIdentity && !env.unexpected.isEmpty && !force then
      .err (.diskNotEmpty (String.intercalate ", " env.unexpected))
    else
      .ok (cfgDisks ++ [⟨rawId, fsUuid⟩]) (force || !existingIdentity)

/-- `run_enroll` from `src/cli/commands/disk_add.rs` lines 34-154 (after
config parse and fs-uuid resolution; `diskIdArg` is the trimmed,
non-empty `--disk-id` argument).  When `.timevault` already exists it is
read: a differing fs-uuid is an error; without `--force`, a differing
`--disk-id` is an error and otherwise the identity's disk-id is adopted
(`existing_identity = !force`); with `--force` the given disk-id wins.
When no identity exists, `--disk-id` is required. -/
def runEnrollModel (cfgDisks : List DiskCfg) (diskIdArg : Option String)
    (force : Bool) (fsUuid : String) (env : EnrollEnv) : EnrollOutcome :=
  if cfgDisks.any (fun d => d.fsUuid == fsUuid) then
    .err (.other ("fs-uuid " ++ fsUuid ++ " already enrolled"))
  else if !env.deviceExists then
    .err (.other ("device /dev/disk/by-uuid/" ++ fsUuid ++ " not found"))
  else if env.deviceMounted then
    .err (.other ("device /dev/disk/by-uuid/" ++ fsUuid ++ " is already mounted"))
  else if env.fsType.isRejected || !env.fsType.isAllowed then
    .err (.other ("unsupported filesystem type " ++ env.fsType.asStr))
  else
    match env.mountResult with
    | .error e => .err (.mountFailure e)
    | .ok () =>
      match env.identityOnDisk with
      | some id =>
        if id.fsUuid != fsUuid then
          .err (.other ("fsUuid mismatch: expected " ++ fsUuid ++ ", got " ++ id.fsUuid))
        else
          match diskIdArg, force with
          | some a, false =>
            if a != id.diskId then
              finishEnroll cfgDisks force fsUuid env (.error (.err (.other
                ("disk-id " ++ a ++ " does not match identity disk-id " ++
                  id.diskId ++ " (use --force to reinitialize)"))))
            else
              finishEnroll cfgDisks force fsUuid env (.ok (id.diskId, true))
          | some a, true => finishEnroll cfgDisks force fsUuid env (.ok (a, false))
          | none, _ => finishEnroll cfgDisks force fsUuid env (.ok (id.diskId, !force))
      | none =>
        match diskIdArg with
        | some a => finishEnroll cfgDisks force fsUuid env (.ok (a, false))
        | none => .exitCode 2

/-! ### Association-list lemmas -/

theorem lookup_insert_self {α : Type} (l : List (String × α)) (k : String) (v : α) :
    lookupEntry (insertEntry l k v) k = some v := by
  induction l with
  | nil => simp [insertEntry, lookupEntry]
  | cons kv rest ih =>
    obtain ⟨k₁, v₁⟩ := kv
    by_cases hk : k₁ == k
    · simp [insertEntry, lookupEntry, hk]
    · simp [insertEntry, lookupEntry, hk, ih]

theorem lookup_insert_ne {α : Type} (l : List (String × α)) (k n : String) (v : α)
    (h : n ≠ k) : lookupEntry (insertEntry l k v) n = lookupEntry l n := by
  have hkn : (k == n) = false := by
    simp only [beq_eq_false_iff_ne]
    exact fun hx => h hx.symm
  induction l with
  | nil => simp [insertEntry, lookupEntry, hkn]
  | cons kv rest ih =>
    obtain ⟨k₁, v₁⟩ := kv
    by_cases hk : k₁ == k
    · have hk' : k₁ = k := by simpa using hk
      subst hk'
      simp [insertEntry, lookupEntry, hkn]
    · by_cases hn : k₁ == n
      · simp [insertEntry, lookupEntry, hk, hn]
      · simp [insertEntry, lookupEntry, hk, hn, ih]

theorem lookup_remove_ne {α : Type} (l : List (String × α)) (k n : String)
    (h : n ≠ k) : lookupEntry (removeEntry l k) n = lookupEntry l n := by
  induction l with
  | nil => simp [removeEntry]
  | cons kv rest ih =>
    obtain ⟨k₁, v₁⟩ := kv
    by_cases hk : k₁ == k
    · have hk' : k₁ = k := by simpa using hk
      subst hk'
      have hne : (k₁ == n) = false := by
        simp only [beq_eq_false_iff_ne]
        exact fun hx => h hx.symm
      simp [removeEntry, lookupEntry, hne, ih]
    · by_cases hn : k₁ == n
      · simp [removeEntry, lookupEntry, hk, hn]
      · simp [removeEntry, lookupEntry, hk, hn, ih]

/-! ### Expiry and current-update lemmas -/

theorem lookup_expireDelete_ne (m : RunMode) (d : Dest) (k n : String)
    (h : n ≠ k) : lookupEntry (expireDelete m d k) n = lookupEntry d n := by
  unfold expireDelete
  cases hl : lookupEntry d k with
  | none => rfl
  | some e =>
    cases e with
    | dir =>
      by_cases hs : m.safeMode || m.dryRun
      · simp [hs]
      · simp [hs, lookup_remove_ne d k n h]
    | file => rfl
    | symlink t => rfl

theorem lookup_foldl_expireDelete (m : RunMode) (names : List String)
    (n : String) (h : ∀ x ∈ names, x ≠ n) (d : Dest) :
    lookupEntry (names.foldl (expireDelete m) d) n = lookupEntry d n := by
  induction names generalizing d with
  | nil => rfl
  | cons x rest ih =>
    have hx : n ≠ x := fun he => (h x (by simp)) he.symm
    rw [List.foldl_cons, ih (fun y hy => h y (by simp [hy]))]
    exact lookup_expireDelete_ne m d x n hx

theorem mem_expireNames_ne_current (d : Dest) (x : String)
    (h : x ∈ expireNames d) : x ≠ "current" := by
  unfold expireNames at h
  have := List.of_mem_filter h
  intro he
  subst he
  simp at this

theorem expire_preserves_current (copies : Nat) (d : Dest) (m : RunMode) :
    lookupEntry (expireOldBackups copies d m) "current" = lookupEntry d "current" := by
  unfold expireOldBackups
  by_cases hlen : (sortStrings (expireNames d)).length ≤ copies
  · simp [hlen]
  · simp only [hlen, if_false]
    apply lookup_foldl_expireDelete
    intro x hx
    have hx' : x ∈ sortStrings (expireNames d) := List.take_subset _ _ hx
    have hx'' : x ∈ expireNames d :=
      (List.perm_insertionSort (fun a b => strLe a b = true) (expireNames d)).mem_iff.mp hx'
    exact mem_expireNames_ne_current d x hx''

theorem expireDelete_safe (m : RunMode) (hs : m.safeMode = true)
    (d : Dest) (k : String) : expireDelete m d k = d := by
  unfold expireDelete
  cases hl : lookupEntry d k with
  | none => rfl
  | some e => cases e <;> simp [hs]

theorem foldl_expireDelete_safe (m : RunMode) (hs : m.safeMode = true)
    (names : List String) (d : Dest) : names.foldl (expireDelete m) d = d := by
  induction names generalizing d with
  | nil => rfl
  | cons x rest ih => rw [List.foldl_cons, expireDelete_safe m hs d x, ih]

theorem expire_safe (copies : Nat) (d : Dest) (m : RunMode)
    (hs : m.safeMode = true) : expireOldBackups copies d m = d := by
  unfold expireOldBackups
  by_cases hlen : (sortStrings (expireNames d)).length ≤ copies
  · simp [hlen]
  · simp only [hlen, if_false]
    exact foldl_expireDelete_safe m hs _ d

theorem entryExists_insert (d : Dest) (k n : String) (v : FsEntry)
    (hn : n ≠ k) (h : entryExists d n = true) :
    entryExists (insertEntry d k v) n = true := by
  unfold entryExists at h ⊢
  rw [lookup_insert_ne d k n v hn]
  cases hl : lookupEntry d n with
  | none => rw [hl] at h; exact h
  | some e =>
    rw [hl] at h
    cases e with
    | dir => rfl
    | file => rfl
    | symlink t =>
      have h' : (lookupEntry d t).isSome = true := h
      by_cases ht : t = k
      · subst ht
        show (lookupEntry (insertEntry d t v) t).isSome = true
        rw [lookup_insert_self d t v]
        rfl
      · show (lookupEntry (insertEntry d k v) t).isSome = true
        rw [lookup_insert_ne d k t v ht]
        exact h'

theorem updateCurrent_safe (m : RunMode) (day : String) (d : Dest)
    (hs : m.safeMode = true) (h : entryExists d "current" = true) :
    updateCurrent m day d = .ok d := by
  unfold updateCurrent
  unfold entryExists at h
  cases hl : lookupEntry d "current" with
  | none => rw [hl] at h; simp at h
  | some e =>
    rw [hl] at h
    cases e with
    | dir =>
      simp only [hl]
      have : entryExists d "current" = true := by unfold entryExists; rw [hl]
      simp [this]
    | file =>
      simp only [hl, hs, Bool.true_or, if_true]
      have : entryExists d "current" = true := by unfold entryExists; rw [hl]
      simp [this]
    | symlink t =>
      simp only [hl, hs, Bool.true_or, if_true]
      have : entryExists d "current" = true := by unfold entryExists; rw [hl]; exact h
      simp [this]

/-! ### Per-job run lemmas -/

theorem syncLoop_allFail (m : RunMode) (codes : Nat → Int) (hd : m.dryRun = false)
    (hfail : ∀ i, isSyncOk (codes i) = false) : syncLoop m codes = (3, codes 3) := by
  unfold syncLoop
  simp [hd, hfail 1, hfail 2]

theorem runJobStep_allFail (m : RunMode) (codes : Nat → Int) (day : String)
    (job : JobM) (d : Dest) (hd : m.dryRun = false)
    (hname : isSafeName job.name = true) (hday : day ≠ "current")
    (hfail : ∀ i, isSyncOk (codes i) = false) :
    ∃ d', runJobStep m codes day job d = .ok (d', 3) ∧
      lookupEntry d' "current" = lookupEntry d "current" := by
  unfold runJobStep
  simp only [hname, Bool.not_true, Bool.false_eq_true, if_false]
  rw [syncLoop_allFail m codes hd hfail]
  simp only [hfail 3, Bool.false_and, Bool.false_eq_true, if_false]
  refine ⟨_, rfl, ?_⟩
  split
  · rw [lookup_insert_ne _ day "current" _ (Ne.symm hday)]
    exact expire_preserves_current _ d m
  · exact expire_preserves_current _ d m

theorem syncLoop_spec (m : RunMode) (codes : Nat → Int) :
    (syncLoop m codes).1 ≤ 3
    ∧ ((syncLoop m codes).1 < 3 → isSyncOk (syncLoop m codes).2 = true)
    ∧ (∀ i, 1 ≤ i → i < (syncLoop m codes).1 →
        isSyncOk (if m.dryRun then 0 else codes i) = false)
    ∧ (syncLoop m codes).2 = (if m.dryRun then 0 else codes (syncLoop m codes).1) := by
  unfold syncLoop
  by_cases h1 : isSyncOk (if m.dryRun then 0 else codes 1)
  · refine ⟨by simp [h1], by simp [h1], ?_, by simp [h1]⟩
    intro i hi1 hi2
    simp only [h1, if_true] at hi2
    omega
  · by_cases h2 : isSyncOk (if m.dryRun then 0 else codes 2)
    · refine ⟨by simp [h1, h2], by simp [h1, h2], ?_, by simp [h1, h2]⟩
      intro i hi1 hi2
      simp only [h1, h2, Bool.false_eq_true, if_false, if_true] at hi2
      have : i = 1 := by omega
      subst this
      simpa using h1
    · refine ⟨by simp [h1, h2], by simp [h1, h2], ?_, by simp [h1, h2]⟩
      intro i hi1 hi2
      simp only [h1, h2, Bool.false_eq_true, if_false] at hi2
      have : i = 1 ∨ i = 2 := by omega
      rcases this with h | h <;> subst h
      · simpa using h1
      · simpa using h2

theorem except_map_ok {ε α β : Type} (f : α → β) (x : Except ε α) (r : β)
    (h : x.map f = .ok r) : ∃ a, x = .ok a ∧ r = f a := by
  cases x with
  | ok a =>
    simp only [Except.map] at h
    exact ⟨a, rfl, by cases h; rfl⟩
  | error e => simp [Except.map] at h

theorem count_shape (c : Bool) (u : Except String Dest) (d3 : Dest) (n : Nat)
    (r : Dest × Nat)
    (h : (if c then u.map (fun d4 => (d4, n)) else .ok (d3, n)) = .ok r) :
    r.2 = n := by
  split at h
  · obtain ⟨a, _, hr⟩ := except_map_ok _ _ _ h
    subst hr
    rfl
  · cases h
    rfl

theorem runJobStep_count (m : RunMode) (codes : Nat → Int) (day : String)
    (job : JobM) (d : Dest) (r : Dest × Nat)
    (h : runJobStep m codes day job d = .ok r) : r.2 = (syncLoop m codes).1 := by
  unfold runJobStep at h
  dsimp only at h
  split at h
  · exact absurd h (by simp)
  · exact count_shape _ _ _ _ r h

theorem runJobStep_safe (m : RunMode) (codes : Nat → Int) (day : String)
    (job : JobM) (d : Dest) (hs : m.safeMode = true)
    (hname : isSafeName job.name = true) (hday : day ≠ "current")
    (hcur : entryExists d "current" = true) :
    ∃ res, runJobStep m codes day job d = .ok res ∧
      lookupEntry res.1 "current" = lookupEntry d "current" := by
  unfold runJobStep
  simp only [hname, Bool.not_true, Bool.false_eq_true, if_false]
  rw [expire_safe job.copies d m hs]
  have hne : ("current" : String) ≠ day := Ne.symm hday
  -- facts for each possible intermediate destination
  set d2 := if (entryExists d "current" && !entryExists d day) && !m.dryRun
      then insertEntry d day FsEntry.dir else d with hd2
  have h2l : lookupEntry d2 "current" = lookupEntry d "current" := by
    rw [hd2]; split
    · exact lookup_insert_ne d day "current" FsEntry.dir hne
    · rfl
  have h2e : entryExists d2 "current" = true := by
    rw [hd2]; split
    · exact entryExists_insert d day "current" FsEntry.dir hne hcur
    · exact hcur
  set d3 := if (isSyncOk (syncLoop m codes).2 && !m.dryRun) && !entryExists d2 day
      then insertEntry d2 day FsEntry.dir else d2 with hd3
  have h3l : lookupEntry d3 "current" = lookupEntry d "current" := by
    rw [hd3]; split
    · rw [lookup_insert_ne d2 day "current" FsEntry.dir hne]; exact h2l
    · exact h2l
  have h3e : entryExists d3 "current" = true := by
    rw [hd3]; split
    · exact entryExists_insert d2 day "current" FsEntry.dir hne h2e
    · exact h2e
  split
  · rw [updateCurrent_safe m day d3 hs h3e]
    exact ⟨(d3, (syncLoop m codes).1), rfl, h3l⟩
  · exact ⟨(d3, (syncLoop m codes).1), rfl, h3l⟩

/-! ### Claim theorems -/

/-- C1 (counterexample): in the claimed scenario — `copies = 2`, dated
directories 20250101..20250104, `current → 20250104`, day 20250105,
SYNC succeeding, dry-run and safe-mode off — the run leaves `20250103`
in place (expiry runs before the new day's directory is created, so only
`20250101` and `20250102` are deleted), contradicting the claim that the
destination afterwards contains exactly `{20250104, 20250105, current}`
with `20250103` deleted. -/
theorem retention_cap_counterexample :
    runJobStep ⟨false, false, false⟩ (fun _ => 0) "20250105"
        ⟨"home", "/home", 2, none⟩
        [("20250101", .dir), ("20250102", .dir), ("20250103", .dir),
          ("20250104", .dir), ("current", .symlink "20250104")] =
      .ok ([("20250103", .dir), ("20250104", .dir), ("20250105", .dir),
        ("current", .symlink "20250105")], 1)
    ∧ lookupEntry [("20250103", FsEntry.dir), ("20250104", FsEntry.dir),
        ("20250105", FsEntry.dir), ("current", FsEntry.symlink "20250105")]
        "20250103" = some .dir :=
  ⟨rfl, rfl⟩

/-- C1 (amended): retention cap scenario — `copies = 2`, pre-existing
dated directories 20250101..20250104 and `current → 20250104`, run on
day 20250105 with dry-run and safe-mode off and SYNC succeeding: the run
deletes `20250101` and `20250102` only (expiry caps the four directories
that exist before the new day is created), creates `20250105`, and leaves
the destination with exactly `20250103`, `20250104`, `20250105` and
`current → 20250105`. -/
theorem retention_cap_scenario :
    ∃ final : Dest,
      runJobStep ⟨false, false, false⟩ (fun _ => 0) "20250105"
          ⟨"home", "/home", 2, none⟩
          [("20250101", .dir), ("20250102", .dir), ("20250103", .dir),
            ("20250104", .dir), ("current", .symlink "20250104")] =
        .ok (final, 1)
      ∧ lookupEntry final "20250101" = none
      ∧ lookupEntry final "20250102" = none
      ∧ lookupEntry final "20250103" = some .dir
      ∧ lookupEntry final "20250104" = some .dir
      ∧ lookupEntry final "20250105" = some .dir
      ∧ lookupEntry final "current" = some (.symlink "20250105")
      ∧ final.length = 4 :=
  ⟨[("20250103", .dir), ("20250104", .dir), ("20250105", .dir),
      ("current", .symlink "20250105")],
    rfl, rfl, rfl, rfl, rfl, rfl, rfl, rfl⟩

/-- C2 (counterexample): with `safe_mode = true`, `dry_run = false`, no
pre-existing `current`, one dated directory and a successful SYNC, the
run creates `current → 20250105`: the symlink-creation step
(`src/backup/mod.rs` lines 138-144) is guarded only by `dry_run`, so
safe mode does not leave an absent `current` absent, contradicting the
claim that safe mode never creates a `current` symlink. -/
theorem safe_mode_current_counterexample :
    ∃ final : Dest,
      runJobStep ⟨false, true, false⟩ (fun _ => 0) "20250105"
          ⟨"home", "/home", 2, none⟩ [("20250104", .dir)] =
        .ok (final, 1)
      ∧ lookupEntry [(("20250104" : String), FsEntry.dir)] "current" = none
      ∧ lookupEntry final "current" = some (.symlink "20250105") :=
  ⟨[("20250104", .dir), ("20250105", .dir), ("current", .symlink "20250105")],
    rfl, rfl, rfl⟩

/-- C2 (amended): safe mode preserves an existing `current`: for every
run with `safe_mode = true` whose destination has a resolving `current`
entry (symlink to an existing sibling, regular file, or directory), the
per-job run succeeds and leaves the `current` entry exactly as it was —
safe mode skips both the expiry deletions and the removal of `current`.
(When `current` is absent the code still creates it; see the
counterexample.) -/
theorem safe_mode_preserves_existing_current (m : RunMode) (codes : Nat → Int)
    (day : String) (job : JobM) (d : Dest) (hs : m.safeMode = true)
    (hname : isSafeName job.name = true) (hday : day ≠ "current")
    (hcur : entryExists d "current" = true) :
    ∃ res : Dest × Nat, runJobStep m codes day job d = .ok res ∧
      lookupEntry res.1 "current" = lookupEntry d "current" :=
  runJobStep_safe m codes day job d hs hname hday hcur

/-- Witness for C2 (amended) at a concrete input. -/
theorem safe_mode_preserves_existing_current_witness :
    ∃ res : Dest × Nat,
      runJobStep ⟨false, true, false⟩ (fun _ => 7) "20250105"
          ⟨"home", "/home", 2, none⟩
          [("20250103", .dir), ("current", .symlink "20250103")] =
        .ok res ∧
      lookupEntry res.1 "current" =
        lookupEntry [(("20250103" : String), FsEntry.dir),
          ("current", FsEntry.symlink "20250103")] "current" :=
  safe_mode_preserves_existing_current ⟨false, true, false⟩ (fun _ => 7)
    "20250105" ⟨"home", "/home", 2, none⟩
    [("20250103", .dir), ("current", .symlink "20250103")]
    rfl (by decide) (by decide) rfl

/-- C5: the SYNC retry contract of `run_backup`.  (1) Per job, SYNC is
invoked at most 3 times, the loop stops at the first attempt whose exit
code is 0 or 24 (every earlier attempt failed; a loop ending before the
third invocation ended on a success), and the recorded exit code is that
of the last invocation.  (2) The per-job result reports exactly the
loop's invocation count.  (3) When every attempt of every job fails,
`run_backup` still returns success, processes every job in order, invokes
SYNC exactly 3 times per job, and leaves each job's `current` entry
unchanged. -/
theorem sync_retry_contract :
    (∀ (m : RunMode) (codes : Nat → Int),
      (syncLoop m codes).1 ≤ 3
      ∧ ((syncLoop m codes).1 < 3 → isSyncOk (syncLoop m codes).2 = true)
      ∧ (∀ i, 1 ≤ i → i < (syncLoop m codes).1 →
          isSyncOk (if m.dryRun then 0 else codes i) = false)
      ∧ (syncLoop m codes).2 = (if m.dryRun then 0 else codes (syncLoop m codes).1))
    ∧ (∀ (m : RunMode) (codes : Nat → Int) (day : String) (job : JobM)
        (d : Dest) (r : Dest × Nat),
        runJobStep m codes day job d = .ok r → r.2 = (syncLoop m codes).1)
    ∧ (∀ (m : RunMode) (codes : String → Nat → Int) (lockBusy : String → Bool)
        (day : String) (dests : String → Dest) (jobs : List JobM),
        m.dryRun = false → day ≠ "current" →
        (∀ j ∈ jobs, isSafeName j.name = true) →
        (∀ j ∈ jobs, lockBusy j.name = false) →
        (∀ j ∈ jobs, ∀ i, isSyncOk (codes j.name i) = false) →
        ∃ results, runBackup m codes lockBusy day dests jobs = .ok results
          ∧ results.map Prod.fst = jobs.map JobM.name
          ∧ ∀ r ∈ results, r.2.2 = 3 ∧
              lookupEntry r.2.1 "current" = lookupEntry (dests r.1) "current") := by
  refine ⟨syncLoop_spec, runJobStep_count, ?_⟩
  intro m codes lockBusy day dests jobs hd hday hnames hlocks hfail
  induction jobs with
  | nil => exact ⟨[], rfl, rfl, by simp⟩
  | cons job rest ih =>
    obtain ⟨results, hr, hmap, hprop⟩ :=
      ih (fun j hj => hnames j (List.mem_cons_of_mem _ hj))
        (fun j hj => hlocks j (List.mem_cons_of_mem _ hj))
        (fun j hj => hfail j (List.mem_cons_of_mem _ hj))
    obtain ⟨d', hstep, hcur⟩ :=
      runJobStep_allFail m (codes job.name) day job (dests job.name) hd
        (hnames job (List.mem_cons_self _ _)) hday (hfail job (List.mem_cons_self _ _))
    refine ⟨(job.name, d', 3) :: results, ?_, ?_, ?_⟩
    · have hbusy : lockBusy job.name = false := hlocks job (List.mem_cons_self _ _)
      simp only [runBackup, hd, hbusy, Bool.not_false, Bool.and_false,
        Bool.false_eq_true, if_false]
      rw [hstep]
      simp only [bind, Except.bind]
      rw [hr]
    · simp [hmap]
    · intro r hrmem
      rcases List.mem_cons.mp hrmem with h | h
      · subst h
        exact ⟨rfl, hcur⟩
      · exact hprop r h

/-- Witness for C5 at concrete inputs: one job whose three SYNC attempts
all exit 23. -/
theorem sync_retry_contract_witness :
    ∃ results,
      runBackup ⟨false, false, false⟩ (fun _ _ => 23) (fun _ => false)
          "20250105" (fun _ => [("20250104", FsEntry.dir),
            ("current", FsEntry.symlink "20250104")])
          [⟨"home", "/home", 2, none⟩] = .ok results
      ∧ results.map Prod.fst = [⟨"home", "/home", 2, none⟩].map JobM.name
      ∧ ∀ r ∈ results, r.2.2 = 3 ∧
          lookupEntry r.2.1 "current" =
            lookupEntry ((fun _ => [(("20250104" : String), FsEntry.dir),
              ("current", FsEntry.symlink "20250104")]) r.1) "current" :=
  sync_retry_contract.2.2 ⟨false, false, false⟩ (fun _ _ => 23) (fun _ => false)
    "20250105" (fun _ => [("20250104", .dir), ("current", .symlink "20250104")])
    [⟨"home", "/home", 2, none⟩] rfl (by decide)
    (by intro j hj; simp at hj; subst hj; decide)
    (by intro j hj; rfl)
    (by intro j hj i; rfl)

theorem selectDisk_filter_eq (disks : List DiskCfg) (conn : String → Bool) :
    disks.filter (fun d =>
        ((disks.filter (fun x => conn x.fsUuid)).map (fun x => x.fsUuid)).contains d.fsUuid)
      = disks.filter (fun d => conn d.fsUuid) := by
  apply List.filter_congr
  intro d hd
  by_cases hc : conn d.fsUuid = true
  · rw [hc]
    have hmem : d.fsUuid ∈ (disks.filter (fun x => conn x.fsUuid)).map (fun x => x.fsUuid) :=
      List.mem_map.mpr ⟨d, List.mem_filter.mpr ⟨hd, hc⟩, rfl⟩
    simpa using hmem
  · have hc' : conn d.fsUuid = false := by simpa using hc
    rw [hc']
    rw [Bool.eq_false_iff]
    intro hx
    have hmem : d.fsUuid ∈ (disks.filter (fun x => conn x.fsUuid)).map (fun x => x.fsUuid) := by
      simpa using hx
    obtain ⟨d', hd', he⟩ := List.mem_map.mp hmem
    have hp := (List.mem_filter.mp hd').2
    rw [he] at hp
    rw [hc'] at hp
    exact absurd hp (by simp)

/-- C4 (counterexample): for the empty catalog with no disk connected,
`select_disk(disks, None)` returns `Other("no backup disks enrolled; run
`timevault disk enroll ...`")`, not `NoDiskConnected`, contradicting the
claim's "when zero enrolled disks are connected it returns
NoDiskConnected ... including the empty catalog". -/
theorem select_disk_empty_catalog_counterexample :
    selectDisk [] none (fun _ => false) =
      .error (.other "no backup disks enrolled; run `timevault disk enroll ...`")
    ∧ selectDisk [] none (fun _ => false) ≠ .error .noDiskConnected :=
  ⟨rfl, by intro hx; injection hx with h; exact DiskErrorM.noConfusion h⟩

/-- C4 (amended): for every nonempty catalog and every connectivity
state, `select_disk(disks, None)` returns a disk iff exactly one enrolled
disk is connected; with zero connected it returns `NoDiskConnected` and
with more than one connected it returns `MultipleDisksConnected`.  (The
empty catalog instead yields `Other("no backup disks enrolled; ...")`,
see the counterexample.) -/
theorem select_disk_cardinality (disks : List DiskCfg) (conn : String → Bool)
    (h : disks ≠ []) :
    ((∃ d, selectDisk disks none conn = .ok d) ↔
        (disks.filter (fun d => conn d.fsUuid)).length = 1)
    ∧ ((disks.filter (fun d => conn d.fsUuid)).length = 0 →
        selectDisk disks none conn = .error .noDiskConnected)
    ∧ (1 < (disks.filter (fun d => conn d.fsUuid)).length →
        selectDisk disks none conn = .error .multipleDisksConnected) := by
  have hne : disks.isEmpty = false := by
    cases disks with
    | nil => exact absurd rfl h
    | cons a l => rfl
  unfold selectDisk selectDiskFromConnected
  dsimp only
  simp only [hne, Bool.false_eq_true, if_false]
  rw [selectDisk_filter_eq disks conn]
  cases hf : disks.filter (fun d => conn d.fsUuid) with
  | nil => simp
  | cons d0 rest =>
    cases rest with
    | nil => simp
    | cons d1 rest' => simp

/-- Witness for C4 (amended) at a concrete input: a two-disk catalog with
exactly the second disk connected. -/
theorem select_disk_cardinality_witness :
    ∃ d, selectDisk [⟨"d1", "u1"⟩, ⟨"d2", "u2"⟩] none (fun u => u == "u2") = .ok d :=
  (select_disk_cardinality [⟨"d1", "u1"⟩, ⟨"d2", "u2"⟩] (fun u => u == "u2")
    (by decide)).1.mpr (by decide)

/-- C8: the mapping from `DiskError` variants to process exit codes is
exactly NoDiskConnected → 10, MultipleDisksConnected → 11,
IdentityMismatch → 12, DiskNotEmpty → 13, MountFailure and
UmountFailure → 14, Other → 2, for every payload of each variant. -/
theorem disk_error_exit_codes :
    exitForDiskError .noDiskConnected = 10
    ∧ exitForDiskError .multipleDisksConnected = 11
    ∧ (∀ s, exitForDiskError (.identityMismatch s) = 12)
    ∧ (∀ s, exitForDiskError (.diskNotEmpty s) = 13)
    ∧ (∀ s, exitForDiskError (.mountFailure s) = 14)
    ∧ (∀ s, exitForDiskError (.umountFailure s) = 14)
    ∧ (∀ s, exitForDiskError (.other s) = 2) :=
  ⟨rfl, rfl, fun _ => rfl, fun _ => rfl, fun _ => rfl, fun _ => rfl, fun _ => rfl⟩

/-- C9: under `--disk-id`, a job with no `diskIds` affinity never matches
(`job_requires_disk` returns false), the jobs kept by the filtering step
are exactly jobs explicitly listing the selected disk-id, and the step
aborts with exit code 2 and "no jobs matched disk selection; aborting"
iff no selected job lists that disk-id. -/
theorem disk_selection_excludes_unpinned_jobs (jobs : List JobM) (diskId : String) :
    (∀ j : JobM, j.diskIds = none → jobRequiresDisk j diskId = false)
    ∧ (∀ kept, filterJobsForDisk jobs diskId = .ok kept →
        ∀ j ∈ kept, j ∈ jobs ∧ ∃ ids, j.diskIds = some ids ∧ diskId ∈ ids)
    ∧ (filterJobsForDisk jobs diskId =
          .error (2, "no jobs matched disk selection; aborting")
        ↔ ∀ j ∈ jobs, jobRequiresDisk j diskId = false) := by
  refine ⟨?_, ?_, ?_⟩
  · intro j hj
    unfold jobRequiresDisk
    rw [hj]
  · intro kept hk j hj
    unfold filterJobsForDisk at hk
    dsimp only at hk
    split at hk
    · exact absurd hk (by simp)
    · cases hk
      have hmem := List.mem_filter.mp hj
      refine ⟨hmem.1, ?_⟩
      have hreq := hmem.2
      unfold jobRequiresDisk at hreq
      cases hids : j.diskIds with
      | none => rw [hids] at hreq; exact absurd hreq (by simp)
      | some ids =>
        rw [hids] at hreq
        obtain ⟨x, hx, hbx⟩ := List.any_eq_true.mp hreq
        have : x = diskId := by simpa using hbx
        subst this
        exact ⟨ids, rfl, hx⟩
  · unfold filterJobsForDisk
    dsimp only
    split
    · next hemp =>
      have hnil : jobs.filter (fun j => jobRequiresDisk j diskId) = [] :=
        List.isEmpty_iff.mp hemp
      constructor
      · intro _ j hj
        by_cases hreq : jobRequiresDisk j diskId = true
        · have : j ∈ jobs.filter (fun j => jobRequiresDisk j diskId) :=
            List.mem_filter.mpr ⟨hj, hreq⟩
          rw [hnil] at this
          exact absurd this (by simp)
        · simpa using hreq
      · intro _
        rfl
    · next hemp =>
      constructor
      · intro hx
        exact absurd hx (by simp)
      · intro hall
        have hnil : jobs.filter (fun j => jobRequiresDisk j diskId) = [] := by
          rw [List.filter_eq_nil_iff]
          intro j hj
          simp [hall j hj]
        rw [hnil] at hemp
        exact absurd rfl hemp

/-- Witness for C9 at a concrete input: a job with no `diskIds` is
excluded, so the single-job selection aborts. -/
theorem disk_selection_excludes_unpinned_jobs_witness :
    jobRequiresDisk ⟨"home", "/home", 2, none⟩ "d1" = false ∧
    filterJobsForDisk [⟨"home", "/home", 2, none⟩] "d1" =
      .error (2, "no jobs matched disk selection; aborting") :=
  ⟨(disk_selection_excludes_unpinned_jobs [⟨"home", "/home", 2, none⟩] "d1").1
      ⟨"home", "/home", 2, none⟩ rfl,
    (disk_selection_excludes_unpinned_jobs [⟨"home", "/home", 2, none⟩] "d1").2.2.mpr
      (by intro j hj; simp at hj; subst hj; rfl)⟩

/-- C10: for every environment — including a missing, unreadable or
mismatched identity and any filesystem-type state — `mount_and_verify`
with `dry_run = true` performs no mount, acquires no guard, skips the
identity and filesystem-type checks entirely, and returns the computed
mountpoint `mount_base/<fs-uuid>`. -/
theorem dry_run_mount_and_verify (env : MountEnv) (disk : DiskCfg)
    (mountBase : String) (sm vb : Bool) :
    mountAndVerify env disk mountBase ⟨true, sm, vb⟩ =
      (false, .ok false (mountBase ++ "/" ++ disk.fsUuid)) := rfl

/-- C6: the pristine-cache hash invariant.  (1) For every path already in
the cache whose mtime changed, the refreshed entry keeps the stored hash
and sets `dirty` to whether the fresh content hash differs from it.
(2) Consequently a file observed pristine, then modified, then restored
to its original content — each time under a new mtime — has its dirty
flag go false → true → false while its stored hash never changes. -/
theorem pristine_cache_hash_invariant :
    (∀ (old : List (String × CacheEntryM)) (path : String) (e : CacheEntryM)
        (mt : Nat) (hnow : String),
      lookupEntry old path = some e → e.mtime ≠ mt →
      processPath old path mt hnow = ⟨mt, e.hash, hnow != e.hash⟩)
    ∧ (∀ (p : String) (t1 t2 t3 : Nat) (h h' : String),
        t1 ≠ t2 → t2 ≠ t3 → h' ≠ h →
        lookupEntry (buildCacheStep [] [(p, t1, h)]) p = some ⟨t1, h, false⟩
        ∧ lookupEntry (buildCacheStep (buildCacheStep [] [(p, t1, h)])
            [(p, t2, h')]) p = some ⟨t2, h, true⟩
        ∧ lookupEntry (buildCacheStep (buildCacheStep (buildCacheStep []
            [(p, t1, h)]) [(p, t2, h')]) [(p, t3, h)]) p = some ⟨t3, h, false⟩) := by
  constructor
  · intro old path e mt hnow hl hmt
    unfold processPath
    rw [hl]
    have : (e.mtime == mt) = false := by simpa using hmt
    simp [this]
  · intro p t1 t2 t3 h h' h12 h23 hhh
    have hb12 : (t1 == t2) = false := by simpa using h12
    have hb23 : (t2 == t3) = false := by simpa using h23
    have hbh : (h' != h) = true := by simpa using hhh
    refine ⟨?_, ?_, ?_⟩
    · simp [buildCacheStep, processPath, insertEntry, lookupEntry]
    · simp [buildCacheStep, processPath, insertEntry, lookupEntry, hb12, hbh]
    · simp [buildCacheStep, processPath, insertEntry, lookupEntry, hb12, hb23, hbh]

/-- Witness for C6 at concrete inputs: mtimes 1, 2, 3 and content hashes
"aaa", "bbb", "aaa". -/
theorem pristine_cache_hash_invariant_witness :
    lookupEntry (buildCacheStep [] [("/usr/bin/tool", 1, "aaa")]) "/usr/bin/tool"
        = some ⟨1, "aaa", false⟩
    ∧ lookupEntry (buildCacheStep (buildCacheStep [] [("/usr/bin/tool", 1, "aaa")])
        [("/usr/bin/tool", 2, "bbb")]) "/usr/bin/tool" = some ⟨2, "aaa", true⟩
    ∧ lookupEntry (buildCacheStep (buildCacheStep (buildCacheStep []
        [("/usr/bin/tool", 1, "aaa")]) [("/usr/bin/tool", 2, "bbb")])
        [("/usr/bin/tool", 3, "aaa")]) "/usr/bin/tool" = some ⟨3, "aaa", false⟩ :=
  pristine_cache_hash_invariant.2 "/usr/bin/tool" 1 2 3 "aaa" "bbb"
    (by decide) (by decide) (by decide)

/-- C3 (counterexample): a disk whose mounted root already contains a
`.timevault` identity (fs-uuid matching, no `--disk-id` given, no
`--force`) is enrolled successfully: the identity's disk-id is adopted,
the identity file is not rewritten, and the disk IS added to the config —
`run_enroll` neither fails nor produces
`Other("identity file already exists; use --force to reinitialize")`
(that message exists only in the legacy implementation). -/
theorem enroll_existing_identity_counterexample :
    runEnrollModel [] none false "u1"
        ⟨true, false, .ext4, .ok (), some ⟨1, "d1", "u1", some .ext4,
          "2025-01-01T00:00:00Z"⟩, []⟩ =
      .ok [⟨"d1", "u1"⟩] false
    ∧ runEnrollModel [] none false "u1"
        ⟨true, false, .ext4, .ok (), some ⟨1, "d1", "u1", some .ext4,
          "2025-01-01T00:00:00Z"⟩, []⟩ ≠
      .err (.other "identity file already exists; use --force to reinitialize") :=
  ⟨rfl, by intro hx; exact EnrollOutcome.noConfusion hx⟩

/-- C3 (amended): with an existing `.timevault` identity and
`force = false` (pre-mount checks passing), `run_enroll` fails with
`Other("fsUuid mismatch: expected <uuid>, got <identity uuid>")` when the
identity's fs-uuid differs, fails with `Other("disk-id <a> does not match
identity disk-id <id> (use --force to reinitialize)")` when a differing
`--disk-id` is given, and otherwise adopts the identity's disk-id, skips
rewriting the identity file, and appends the disk to the config. -/
theorem enroll_existing_identity_spec (cfg : List DiskCfg)
    (diskIdArg : Option String) (fsUuid : String) (env : EnrollEnv)
    (id : DiskIdentityM)
    (hid : env.identityOnDisk = some id)
    (h1 : cfg.any (fun d => d.fsUuid == fsUuid) = false)
    (h2 : env.deviceExists = true) (h3 : env.deviceMounted = false)
    (h4 : env.fsType.isRejected = false) (h5 : env.fsType.isAllowed = true)
    (h6 : env.mountResult = .ok ()) :
    (id.fsUuid ≠ fsUuid → runEnrollModel cfg diskIdArg false fsUuid env =
        .err (.other ("fsUuid mismatch: expected " ++ fsUuid ++ ", got " ++ id.fsUuid)))
    ∧ (∀ a, diskIdArg = some a → id.fsUuid = fsUuid → a ≠ id.diskId →
        runEnrollModel cfg diskIdArg false fsUuid env =
        .err (.other ("disk-id " ++ a ++ " does not match identity disk-id " ++
          id.diskId ++ " (use --force to reinitialize)")))
    ∧ (id.fsUuid = fsUuid → (diskIdArg = none ∨ diskIdArg = some id.diskId) →
        isSafeName id.diskId = true →
        cfg.any (fun d => d.diskId == id.diskId) = false →
        runEnrollModel cfg diskIdArg false fsUuid env =
        .ok (cfg ++ [⟨id.diskId, fsUuid⟩]) false) := by
  have hbody : runEnrollModel cfg diskIdArg false fsUuid env =
      (match env.identityOnDisk with
        | some id =>
          if id.fsUuid != fsUuid then
            .err (.other ("fsUuid mismatch: expected " ++ fsUuid ++ ", got " ++ id.fsUuid))
          else
            match diskIdArg, false with
            | some a, false =>
              if a != id.diskId then
                finishEnroll cfg false fsUuid env (.error (.err (.other
                  ("disk-id " ++ a ++ " does not match identity disk-id " ++
                    id.diskId ++ " (use --force to reinitialize)"))))
              else
                finishEnroll cfg false fsUuid env (.ok (id.diskId, true))
            | some a, true => finishEnroll cfg false fsUuid env (.ok (a, false))
            | none, _ => finishEnroll cfg false fsUuid env (.ok (id.diskId, !false))
        | none =>
          match diskIdArg with
          | some a => finishEnroll cfg false fsUuid env (.ok (a, false))
          | none => .exitCode 2) := by
    unfold runEnrollModel
    rw [h1, h2, h3, h4, h5, h6]
    simp
  refine ⟨?_, ?_, ?_⟩
  · intro hne
    rw [hbody, hid]
    have : (id.fsUuid != fsUuid) = true := by simpa using hne
    simp only [this, if_true]
  · intro a ha heq hne
    rw [hbody, hid, ha]
    have hfe : (id.fsUuid != fsUuid) = false := by simpa using heq
    have hde : (a != id.diskId) = true := by simpa using hne
    simp only [hfe, Bool.false_eq_true, if_false, hde, if_true]
    rfl
  · intro heq harg hsafe hdup
    have hfe : (id.fsUuid != fsUuid) = false := by simpa using heq
    have hfin : finishEnroll cfg false fsUuid env (.ok (id.diskId, true)) =
        .ok (cfg ++ [⟨id.diskId, fsUuid⟩]) false := by
      simp [finishEnroll, hsafe, hdup]
    rcases harg with ha | ha
    · rw [hbody, hid, ha]
      simp only [hfe, Bool.false_eq_true, if_false]
      have hfin' : finishEnroll cfg false fsUuid env (.ok (id.diskId, !false)) =
          .ok (cfg ++ [⟨id.diskId, fsUuid⟩]) false := by
        simp [finishEnroll, hsafe, hdup]
      exact hfin'
    · rw [hbody, hid, ha]
      have hde : (id.diskId != id.diskId) = false := by simp
      simp only [hfe, Bool.false_eq_true, if_false, hde]
      exact hfin

/-- Witness for C3 (amended) at a concrete input: enrolling over an
existing identity with a mismatching `--disk-id` and no `--force`. -/
theorem enroll_existing_identity_spec_witness :
    runEnrollModel [] (some "other-id") false "u1"
        ⟨true, false, .ext4, .ok (), some ⟨1, "d1", "u1", some .ext4,
          "2025-01-01T00:00:00Z"⟩, []⟩ =
      .err (.other ("disk-id " ++ "other-id" ++ " does not match identity disk-id " ++
        "d1" ++ " (use --force to reinitialize)")) :=
  (enroll_existing_identity_spec [] (some "other-id") "u1"
      ⟨true, false, .ext4, .ok (), some ⟨1, "d1", "u1", some .ext4,
        "2025-01-01T00:00:00Z"⟩, []⟩
      ⟨1, "d1", "u1", some .ext4, "2025-01-01T00:00:00Z"⟩
      rfl rfl rfl rfl rfl rfl rfl).2.1
    "other-id" rfl rfl (by decide)

/-! ### Cascade lemmas -/

theorem cascadeJobsFor_subset (primary : DiskCfg) (connected : List DiskCfg)
    (jobs : List JobM) (id : String) (j' : JobM)
    (h : j' ∈ cascadeJobsFor primary connected jobs id) : j' ∈ jobs := by
  unfold cascadeJobsFor at h
  induction jobs with
  | nil => simp at h
  | cons j rest ih =>
    rw [List.foldr_cons] at h
    rcases List.mem_append.mp h with h | h
    · obtain ⟨_, _, he⟩ := List.mem_map.mp h
      rw [← he]
      exact List.mem_cons_self _ _
    · exact List.mem_cons_of_mem _ (ih h)

theorem buildCascadeJobs_all_ok (m : RunMode) (srcExists : String → Bool)
    (pm : String) (l : List JobM)
    (hex : ∀ j ∈ l, srcExists (cascadeSrc pm j) = true) :
    buildCascadeJobs m srcExists pm l =
      .ok (l.map (fun j => { j with source := cascadeSrc pm j })) := by
  induction l with
  | nil => rfl
  | cons j rest ih =>
    have hj := hex j (List.mem_cons_self _ _)
    unfold buildCascadeJobs
    dsimp only
    rw [hj]
    simp only [Bool.not_true, Bool.and_false, Bool.false_eq_true, if_false]
    rw [ih (fun j' hj' => hex j' (List.mem_cons_of_mem _ hj'))]
    simp [bind, Except.bind]

theorem buildCascadeJobs_missing (m : RunMode) (srcExists : String → Bool)
    (pm : String) (l : List JobM) (hd : m.dryRun = false)
    (hmiss : ∃ j ∈ l, srcExists (cascadeSrc pm j) = false) :
    ∃ j, j ∈ l ∧ srcExists (cascadeSrc pm j) = false ∧
      buildCascadeJobs m srcExists pm l =
        .error (1, missingMsg (cascadeSrc pm j)) := by
  induction l with
  | nil => simp at hmiss
  | cons j rest ih =>
    by_cases hj : srcExists (cascadeSrc pm j) = false
    · refine ⟨j, List.mem_cons_self _ _, hj, ?_⟩
      unfold buildCascadeJobs
      dsimp only
      rw [hj]
      simp [hd]
    · have hj' : srcExists (cascadeSrc pm j) = true := by
        cases hv : srcExists (cascadeSrc pm j)
        · exact absurd hv hj
        · rfl
      have hrest : ∃ j' ∈ rest, srcExists (cascadeSrc pm j') = false := by
        obtain ⟨j', hm, hs⟩ := hmiss
        rcases List.mem_cons.mp hm with he | hm'
        · subst he
          exact absurd hs hj
        · exact ⟨j', hm', hs⟩
      obtain ⟨j', hm, hs, hb⟩ := ih hrest
      refine ⟨j', List.mem_cons_of_mem _ hm, hs, ?_⟩
      unfold buildCascadeJobs
      dsimp only
      rw [hj']
      rw [hd]
      simp only [Bool.not_true, Bool.and_false, Bool.not_false, Bool.false_and,
        Bool.false_eq_true, if_false]
      rw [hb]
      simp [bind, Except.bind]

theorem buildCascadeJobs_dry (m : RunMode) (srcExists : String → Bool)
    (pm : String) (l : List JobM) (hdry : m.dryRun = true) :
    ∃ l', buildCascadeJobs m srcExists pm l = .ok l' ∧
      ∀ j' ∈ l', ∃ j ∈ l, j' = { j with source := cascadeSrc pm j } ∧
        srcExists (cascadeSrc pm j) = true := by
  induction l with
  | nil => exact ⟨[], rfl, by simp⟩
  | cons j rest ih =>
    obtain ⟨l', hb, hp⟩ := ih
    cases hj : srcExists (cascadeSrc pm j) with
    | false =>
      refine ⟨l', ?_, fun j' hj' => ?_⟩
      · unfold buildCascadeJobs
        dsimp only
        rw [hj, hdry]
        simpa using hb
      · obtain ⟨j₀, hm, he, hs⟩ := hp j' hj'
        exact ⟨j₀, List.mem_cons_of_mem _ hm, he, hs⟩
    | true =>
      refine ⟨{ j with source := cascadeSrc pm j } :: l', ?_, fun j' hj' => ?_⟩
      · unfold buildCascadeJobs
        dsimp only
        rw [hj, hdry]
        simp only [Bool.not_true, Bool.and_false, Bool.false_eq_true, if_false]
        rw [hb]
        simp [bind, Except.bind]
      · rcases List.mem_cons.mp hj' with he | hm'
        · exact ⟨j, List.mem_cons_self _ _, he, hj⟩
        · obtain ⟨j₀, hm, he, hs⟩ := hp j' hm'
          exact ⟨j₀, List.mem_cons_of_mem _ hm, he, hs⟩

theorem cascadeDisks_all_ok (mv : DiskCfg → Except RunErr String)
    (mnt : DiskCfg → String)
    (rbc : List JobM → String → Option (Int × String))
    (srcExists : String → Bool) (primary : DiskCfg) (jobs : List JobM)
    (allConnected : List DiskCfg) (m : RunMode) (pm : String)
    (hmv : ∀ d, mv d = .ok (mnt d))
    (hrbc : ∀ js mp, rbc js mp = none)
    (hex : ∀ j ∈ jobs, srcExists (cascadeSrc pm j) = true) :
    ∀ ds : List DiskCfg,
      cascadeDisks mv rbc srcExists primary jobs allConnected m pm ds =
      .ok (none, (ds.filter (fun d =>
          !(cascadeJobsFor primary allConnected jobs d.diskId).isEmpty)).map
        (fun d => (mnt d, (cascadeJobsFor primary allConnected jobs d.diskId).map
          (fun j => { j with source := cascadeSrc pm j })))) := by
  intro ds
  induction ds with
  | nil => rfl
  | cons d rest ih =>
    unfold cascadeDisks
    dsimp only
    cases hjl : (cascadeJobsFor primary allConnected jobs d.diskId).isEmpty with
    | true =>
      simp only [if_true]
      rw [ih]
      simp [List.filter_cons, hjl]
    | false =>
      simp only [Bool.false_eq_true, if_false]
      have hex' : ∀ j ∈ cascadeJobsFor primary allConnected jobs d.diskId,
          srcExists (cascadeSrc pm j) = true :=
        fun j hj => hex j (cascadeJobsFor_subset _ _ _ _ j hj)
      have hb := buildCascadeJobs_all_ok m srcExists pm _ hex'
      obtain ⟨x, xs, hxl⟩ : ∃ x xs,
          cascadeJobsFor primary allConnected jobs d.diskId = x :: xs := by
        cases hc : cascadeJobsFor primary allConnected jobs d.diskId with
        | nil => rw [hc] at hjl; simp at hjl
        | cons x xs => exact ⟨x, xs, rfl⟩
      rw [hmv d]
      simp only [bind, Except.bind]
      rw [hb, hxl]
      simp only [List.map_cons]
      rw [hrbc]
      rw [ih]
      simp only [bind, Except.bind]
      simp [List.filter_cons, hjl, hxl]

theorem cascadeDisks_missing (mv : DiskCfg → Except RunErr String)
    (mnt : DiskCfg → String)
    (rbc : List JobM → String → Option (Int × String))
    (srcExists : String → Bool) (primary : DiskCfg) (jobs : List JobM)
    (allConnected : List DiskCfg) (m : RunMode) (pm : String)
    (hmv : ∀ d, mv d = .ok (mnt d))
    (hrbc : ∀ js mp, rbc js mp = none)
    (hd : m.dryRun = false) :
    ∀ ds : List DiskCfg,
      (∃ d ∈ ds, cascadeJobsFor primary allConnected jobs d.diskId ≠ [] ∧
        ∃ j ∈ cascadeJobsFor primary allConnected jobs d.diskId,
          srcExists (cascadeSrc pm j) = false) →
      ∃ j lg, j ∈ jobs ∧ srcExists (cascadeSrc pm j) = false ∧
        cascadeDisks mv rbc srcExists primary jobs allConnected m pm ds =
          .ok (some (1, missingMsg (cascadeSrc pm j)), lg) := by
  intro ds
  induction ds with
  | nil => intro h; simp at h
  | cons d rest ih =>
    intro hex
    unfold cascadeDisks
    dsimp only
    cases hjl : (cascadeJobsFor primary allConnected jobs d.diskId).isEmpty with
    | true =>
      simp only [if_true]
      apply ih
      obtain ⟨d', hd', hne, hj⟩ := hex
      rcases List.mem_cons.mp hd' with he | hm
      · subst he
        exact absurd (List.isEmpty_iff.mp hjl) hne
      · exact ⟨d', hm, hne, hj⟩
    | false =>
      simp only [Bool.false_eq_true, if_false]
      rw [hmv d]
      simp only [bind, Except.bind]
      by_cases hmd : ∃ j ∈ cascadeJobsFor primary allConnected jobs d.diskId,
          srcExists (cascadeSrc pm j) = false
      · obtain ⟨j, hjm, hjs, hb⟩ :=
          buildCascadeJobs_missing m srcExists pm _ hd hmd
        refine ⟨j, [], cascadeJobsFor_subset _ _ _ _ j hjm, hjs, ?_⟩
        rw [hb]
      · have hall : ∀ j ∈ cascadeJobsFor primary allConnected jobs d.diskId,
            srcExists (cascadeSrc pm j) = true := by
          intro j hj
          cases hv : srcExists (cascadeSrc pm j) with
          | false => exact absurd ⟨j, hj, hv⟩ hmd
          | true => rfl
        have hb := buildCascadeJobs_all_ok m srcExists pm _ hall
        obtain ⟨x, xs, hxl⟩ : ∃ x xs,
            cascadeJobsFor primary allConnected jobs d.diskId = x :: xs := by
          cases hc : cascadeJobsFor primary allConnected jobs d.diskId with
          | nil => rw [hc] at hjl; simp at hjl
          | cons x xs => exact ⟨x, xs, rfl⟩
        have hrest : ∃ d' ∈ rest,
            cascadeJobsFor primary allConnected jobs d'.diskId ≠ [] ∧
            ∃ j ∈ cascadeJobsFor primary allConnected jobs d'.diskId,
              srcExists (cascadeSrc pm j) = false := by
          obtain ⟨d', hd', hne, hj⟩ := hex
          rcases List.mem_cons.mp hd' with he | hm
          · subst he
            exact absurd hj hmd
          · exact ⟨d', hm, hne, hj⟩
        obtain ⟨j, lg, hjj, hjs, hrec⟩ := ih hrest
        refine ⟨j, (mnt d, (x :: xs).map
          (fun j => { j with source := cascadeSrc pm j })) :: lg, hjj, hjs, ?_⟩
        rw [hb, hxl]
        simp only [List.map_cons]
        rw [hrbc]
        rw [hrec]

theorem cascadeDisks_dry (mv : DiskCfg → Except RunErr String)
    (mnt : DiskCfg → String)
    (rbc : List JobM → String → Option (Int × String))
    (srcExists : String → Bool) (primary : DiskCfg) (jobs : List JobM)
    (allConnected : List DiskCfg) (m : RunMode) (pm : String)
    (hmv : ∀ d, mv d = .ok (mnt d))
    (hrbc : ∀ js mp, rbc js mp = none)
    (hdry : m.dryRun = true) :
    ∀ ds : List DiskCfg,
      ∃ lg, cascadeDisks mv rbc srcExists primary jobs allConnected m pm ds =
          .ok (none, lg) ∧
        ∀ p ∈ lg, ∀ j' ∈ p.2, ∃ j ∈ jobs,
          j' = { j with source := cascadeSrc pm j } ∧
          srcExists (cascadeSrc pm j) = true := by
  intro ds
  induction ds with
  | nil => exact ⟨[], rfl, by simp⟩
  | cons d rest ih =>
    obtain ⟨lg, hrec, hp⟩ := ih
    unfold cascadeDisks
    dsimp only
    cases hjl : (cascadeJobsFor primary allConnected jobs d.diskId).isEmpty with
    | true =>
      simp only [if_true]
      exact ⟨lg, hrec, hp⟩
    | false =>
      simp only [Bool.false_eq_true, if_false]
      rw [hmv d]
      simp only [bind, Except.bind]
      obtain ⟨l', hb, hl'⟩ := buildCascadeJobs_dry m srcExists pm
        (cascadeJobsFor primary allConnected jobs d.diskId) hdry
      rw [hb]
      cases l' with
      | nil =>
        refine ⟨lg, ?_, hp⟩
        dsimp only
        exact hrec
      | cons c cs =>
        dsimp only
        rw [hrbc]
        rw [hrec]
        refine ⟨(mnt d, c :: cs) :: lg, rfl, ?_⟩
        intro p hpmem j' hj'
        rcases List.mem_cons.mp hpmem with he | hm
        · subst he
          obtain ⟨j₀, hm₀, he₀, hs₀⟩ := hl' j' hj'
          exact ⟨j₀, cascadeJobsFor_subset _ _ _ _ j₀ hm₀, he₀, hs₀⟩
        · exact hp p hm j' hj'

/-- C7: cascade source rewrite.  With `mount_and_verify` abstracted by
`mv` (mounting disk `d` at `mnt d`) and `run_backup_checked` abstracted
by `rbc` (its invocations are logged; `none` = pass succeeded), for a
cascade-enabled run whose primary pass succeeds:
(1) when every cascade source `primary_mount/<job.name>/current` exists,
the run succeeds and performs, after the primary pass, exactly one
second pass per connected disk with a nonempty cascade group, whose job
list is the group with every job's source rewritten to
`primary_mount/<job.name>/current`;
(2) when dry-run is off and some scheduled cascade job's source is
missing, the whole run fails with exit code 1 and the message naming
that missing cascade source;
(3) in dry-run the run does not fail: every logged cascade pass carries
only rewritten jobs whose source exists (jobs with a missing source are
skipped with a notice). -/
theorem cascade_source_rewrite (mv : DiskCfg → Except RunErr String)
    (mnt : DiskCfg → String)
    (rbc : List JobM → String → Option (Int × String))
    (srcExists : String → Bool) (primary : DiskCfg) (jobs : List JobM)
    (connected : List DiskCfg) (m : RunMode)
    (hmv : ∀ d, mv d = .ok (mnt d))
    (hrbc : ∀ js mp, rbc js mp = none) :
    ((∀ j ∈ jobs, srcExists (cascadeSrc (mnt primary) j) = true) →
      runJobsForPrimary mv rbc srcExists primary jobs connected true m =
        .ok (none, (mnt primary, jobs) ::
          (connected.filter (fun d =>
              !(cascadeJobsFor primary connected jobs d.diskId).isEmpty)).map
            (fun d => (mnt d,
              (cascadeJobsFor primary connected jobs d.diskId).map
                (fun j => { j with source := cascadeSrc (mnt primary) j })))))
    ∧ (m.dryRun = false →
        (∃ d ∈ connected, cascadeJobsFor primary connected jobs d.diskId ≠ [] ∧
          ∃ j ∈ cascadeJobsFor primary connected jobs d.diskId,
            srcExists (cascadeSrc (mnt primary) j) = false) →
        ∃ j lg, j ∈ jobs ∧ srcExists (cascadeSrc (mnt primary) j) = false ∧
          runJobsForPrimary mv rbc srcExists primary jobs connected true m =
            .ok (some (1, missingMsg (cascadeSrc (mnt primary) j)), lg))
    ∧ (m.dryRun = true →
        ∃ lg, runJobsForPrimary mv rbc srcExists primary jobs connected true m =
            .ok (none, (mnt primary, jobs) :: lg) ∧
          ∀ p ∈ lg, ∀ j' ∈ p.2, ∃ j ∈ jobs,
            j' = { j with source := cascadeSrc (mnt primary) j } ∧
            srcExists (cascadeSrc (mnt primary) j) = true) := by
  have hstart : ∀ r, cascadeDisks mv rbc srcExists primary jobs connected m
        (mnt primary) connected = r →
      runJobsForPrimary mv rbc srcExists primary jobs connected true m =
        (do
          let t ← r
          Except.ok (t.1, (mnt primary, jobs) :: t.2)) := by
    intro r hr
    unfold runJobsForPrimary
    rw [hmv primary]
    simp only [bind, Except.bind]
    rw [hrbc jobs (mnt primary)]
    dsimp only
    rw [if_pos True.intro]
    rw [hr]
  refine ⟨?_, ?_, ?_⟩
  · intro hex
    rw [hstart _ (cascadeDisks_all_ok mv mnt rbc srcExists primary jobs connected
      m (mnt primary) hmv hrbc hex connected)]
    rfl
  · intro hd hmiss
    obtain ⟨j, lg, hjj, hjs, hrec⟩ := cascadeDisks_missing mv mnt rbc srcExists
      primary jobs connected m (mnt primary) hmv hrbc hd connected hmiss
    refine ⟨j, (mnt primary, jobs) :: lg, hjj, hjs, ?_⟩
    rw [hstart _ hrec]
    rfl
  · intro hdry
    obtain ⟨lg, hrec, hp⟩ := cascadeDisks_dry mv mnt rbc srcExists
      primary jobs connected m (mnt primary) hmv hrbc hdry connected
    refine ⟨lg, ?_, hp⟩
    rw [hstart _ hrec]
    rfl

/-- Witness for C7 at concrete inputs: two connected disks, one job with
no affinity, all cascade sources present. -/
theorem cascade_source_rewrite_witness :
    runJobsForPrimary (fun d => .ok ("/run/timevault/mounts/" ++ d.fsUuid))
        (fun _ _ => none) (fun _ => true) ⟨"d1", "u1"⟩
        [⟨"home", "/home", 2, none⟩] [⟨"d1", "u1"⟩, ⟨"d2", "u2"⟩] true
        ⟨false, false, false⟩ =
      .ok (none, ("/run/timevault/mounts/u1", [⟨"home", "/home", 2, none⟩]) ::
        (([⟨"d1", "u1"⟩, ⟨"d2", "u2"⟩] : List DiskCfg).filter (fun d =>
            !(cascadeJobsFor ⟨"d1", "u1"⟩ [⟨"d1", "u1"⟩, ⟨"d2", "u2"⟩]
              [⟨"home", "/home", 2, none⟩] d.diskId).isEmpty)).map
          (fun d => (("/run/timevault/mounts/" ++ d.fsUuid),
            (cascadeJobsFor ⟨"d1", "u1"⟩ [⟨"d1", "u1"⟩, ⟨"d2", "u2"⟩]
              [⟨"home", "/home", 2, none⟩] d.diskId).map
              (fun j => { j with
                source := cascadeSrc "/run/timevault/mounts/u1" j })))) :=
  (cascade_source_rewrite (fun d => .ok ("/run/timevault/mounts/" ++ d.fsUuid))
      (fun d => "/run/timevault/mounts/" ++ d.fsUuid) (fun _ _ => none)
      (fun _ => true) ⟨"d1", "u1"⟩ [⟨"home", "/home", 2, none⟩]
      [⟨"d1", "u1"⟩, ⟨"d2", "u2"⟩] ⟨false, false, false⟩
      (fun _ => rfl) (fun _ _ => rfl)).1
    (fun _ _ => rfl)

end Timevault
